import Mathlib

/-!
Verification of the per-loglet worker of the log-server
(crates/log-server/src/loglet_worker.rs).

The worker state machine is embedded shallowly: the pure request handlers
(process_store, process_seal, process_trim) are translated directly from the
source, and the select-driven run loop is modelled as a step function over an
explicit worker state, driven by events that resolve the environment's
nondeterminism (which in-flight future completes, whether a log-store enqueue
succeeds, ...).

Types that the worker consumes from sibling crates (offsets, the loglet state
handle, the tail watch) are not part of the sources at hand; they are modelled
from the specification and marked as such in their doc comments.
-/

set_option maxHeartbeats 2000000

namespace LogletWorker

/-- Modelled from the spec: a loglet offset is a 64-bit monotone index,
embedded as Nat with explicit bounds where representability matters.
INVALID = 0 is a sentinel, OLDEST = 1 is the first legal position; the
distinguished values and operations keep their source names, placed in the
namespace named after the source offset type. A legal record position is
any offset at or past OLDEST. -/
def LogletOffset.isValidPosition (o : Nat) : Prop := 1 ≤ o

/-- Modelled from the spec: the INVALID sentinel offset. -/
def LogletOffset.INVALID : Nat := 0

/-- Modelled from the spec: the first legal offset. -/
def LogletOffset.OLDEST : Nat := 1

/-- Modelled from the spec: successor offset. -/
def LogletOffset.next (o : Nat) : Nat := o + 1

/-- Modelled from the spec: predecessor offset (prev of OLDEST is INVALID). -/
def LogletOffset.prev (o : Nat) : Nat := o - 1

/-- A (node, generation) pair identifying the sequencer or a peer;
equality is strict on both fields. -/
structure GenerationalNodeId where
  node : Nat
  generation : Nat
deriving DecidableEq

/-- The protocol status codes carried by every response. -/
inductive Status where
  | Ok
  | Sealed
  | Sealing
  | Dropped
  | Malformed
  | SequencerMismatch
  | OutOfBounds
  | Disabled
deriving DecidableEq

/-- A tail view: the local tail offset together with the sealed flag. -/
structure TailView where
  offset : Nat
  sealed : Bool
deriving DecidableEq

/-- Modelled from the spec: the in-memory loglet state (local tail, trim
point, recorded sequencer); the tail watch publishes from this state. -/
structure LogletState where
  local_tail : TailView
  trim_point : Nat
  sequencer : Option GenerationalNodeId
deriving DecidableEq

/-- Modelled from the spec: snapshot of the sealed flag. -/
def LogletState.is_sealed (st : LogletState) : Bool := st.local_tail.sealed

/-- Modelled from the spec: set_sequencer returns true iff the sequencer
changed from unset to the given id; it never changes a recorded sequencer. -/
def LogletState.set_sequencer (st : LogletState) (id : GenerationalNodeId) :
    LogletState × Bool :=
  match st.sequencer with
  | none => ({ st with sequencer := some id }, true)
  | some _ => (st, false)

/-- Modelled from the spec: update_trim_point returns true iff the value
advanced; it is a no-op when the new value is at or below the current one. -/
def LogletState.update_trim_point (st : LogletState) (new_trim_point : Nat) :
    LogletState × Bool :=
  if st.trim_point < new_trim_point then
    ({ st with trim_point := new_trim_point }, true)
  else
    (st, false)

/-- Modelled from the spec: the tail watch's offset notification is monotone;
publishing an offset moves the local tail to the max of old and new. -/
def LogletState.notify_offset_update (st : LogletState) (o : Nat) : LogletState :=
  { st with local_tail := { st.local_tail with offset := max st.local_tail.offset o } }

/-- Modelled from the spec: the one-shot seal notification; once published the
sealed flag stays true. -/
def LogletState.notify_seal (st : LogletState) : LogletState :=
  { st with local_tail := { st.local_tail with sealed := true } }

/-- Store request flags; only IgnoreSeal is consulted by the worker. -/
structure StoreFlags where
  ignore_seal : Bool
deriving DecidableEq

/-- The body of a Store request. Payload contents are irrelevant to the
worker; payloads are modelled as opaque tokens. The expiry check
(body.expired(), a wall-clock comparison evaluated once at admission) is
modelled from the spec as a boolean field of the request. -/
structure Store where
  first_offset : Nat
  payloads : List Nat
  sequencer : GenerationalNodeId
  flags : StoreFlags
  expired : Bool
  known_global_tail : Nat
deriving DecidableEq

/-- Modelled from the spec: last_offset = first_offset + len(payloads) - 1,
defined only when the result is a representable (64-bit) offset and there is
at least one payload. -/
def Store.last_offset (s : Store) : Option Nat :=
  if s.payloads.length = 0 then none
  else if s.first_offset + s.payloads.length - 1 < 2 ^ 64 then
    some (s.first_offset + s.payloads.length - 1)
  else none

/-- The source's known_sequencer.is_some_and(|s| s != &body.sequencer):
a recorded sequencer that differs from the request's sequencer field. -/
def sequencer_mismatch (st : LogletState) (body : Store) : Bool :=
  match st.sequencer with
  | some q => q != body.sequencer
  | none => false

/-- Result of process_store: the response status, whether a store was
enqueued with the log store (a completion token obtained), the new staging
local tail, and the (possibly updated) loglet state. -/
structure StoreOutcome where
  status : Status
  enqueued : Bool
  staging_local_tail : Nat
  state : LogletState
deriving DecidableEq

/-- Translation of LogletWorker::process_store. The log store's
enqueue_store answer is an input (enqueue_ok: true = a completion token,
false = fail-safe/shutdown). The result is none exactly when the source hits
the unimplemented repair-store path (the IgnoreSeal todo!() panic). -/
def process_store (st : LogletState) (peer : GenerationalNodeId) (body : Store)
    (staging_local_tail next_ok_offset : Nat)
    (sealing_in_progress : Bool) (enqueue_ok : Bool) : Option StoreOutcome :=
  if !body.flags.ignore_seal && st.is_sealed then
    some ⟨.Sealed, false, staging_local_tail, st⟩
  else if sealing_in_progress then
    some ⟨.Sealing, false, staging_local_tail, st⟩
  else if body.expired then
    some ⟨.Dropped, false, staging_local_tail, st⟩
  else if body.payloads.isEmpty then
    some ⟨.Malformed, false, staging_local_tail, st⟩
  else
    match body.last_offset with
    | none => some ⟨.Malformed, false, staging_local_tail, st⟩
    | some last_offset =>
      if body.first_offset = LogletOffset.INVALID then
        some ⟨.Malformed, false, staging_local_tail, st⟩
      else if sequencer_mismatch st body then
        some ⟨.SequencerMismatch, false, staging_local_tail, st⟩
      else if body.first_offset < next_ok_offset ∧ peer ≠ body.sequencer then
        some ⟨.SequencerMismatch, false, staging_local_tail, st⟩
      else if body.flags.ignore_seal then
        none
      else if body.first_offset > next_ok_offset then
        some ⟨.OutOfBounds, false, staging_local_tail, st⟩
      else
        let seq_pair :=
          if st.sequencer = none then st.set_sequencer body.sequencer else (st, false)
        if enqueue_ok then
          some ⟨.Ok, true, LogletOffset.next last_offset, seq_pair.1⟩
        else
          some ⟨.Disabled, false, staging_local_tail, seq_pair.1⟩

/-- Result of the disposable trim task: the response eventually shipped to
the peer (none when the task aborts without responding), the updated loglet
state, and whether a log-store trim was enqueued. -/
structure TrimOutcome where
  response : Option (Status × TailView)
  state : LogletState
  store_trim_enqueued : Bool
deriving DecidableEq

/-- Translation of LogletWorker::process_trim (the body of the disposable
trim task). enqueue_ok resolves log_store.enqueue_trim (note: on failure the
source propagates the error out of the task with ?, so no response is sent);
completion_ok resolves the completion token. -/
def process_trim (st : LogletState) (known_global_tail trim_point : Nat)
    (enqueue_ok completion_ok : Bool) : TrimOutcome :=
  let local_tail := st.local_tail
  let high_watermark := max known_global_tail local_tail.offset
  if trim_point < LogletOffset.OLDEST ∨ trim_point ≥ high_watermark then
    ⟨some (.Malformed, st.local_tail), st, false⟩
  else
    let clipped := min trim_point (LogletOffset.prev local_tail.offset)
    let pair := st.update_trim_point clipped
    if pair.2 then
      if enqueue_ok then
        if completion_ok then
          ⟨some (.Ok, pair.1.local_tail), pair.1, true⟩
        else
          ⟨some (.Disabled, pair.1.local_tail), pair.1, true⟩
      else
        ⟨none, pair.1, false⟩
    else
      ⟨some (.Ok, pair.1.local_tail), pair.1, false⟩

/-- Translation of LogletWorker::process_seal: returns the new value of the
sealing_in_progress flag and whether a seal completion token was obtained.
On an already-sealed loglet the flag is cleared and nothing is enqueued;
otherwise the flag is set and a token is obtained iff the log store accepted
the seal (enqueue_ok). -/
def process_seal (st : LogletState) (enqueue_ok : Bool) : Bool × Bool :=
  if st.is_sealed then (false, false)
  else (true, enqueue_ok)

/-- A store handed to the log store, awaiting durability: the response
context together with the staging tail captured as future_last_committed. -/
structure PendingStore where
  peer : GenerationalNodeId
  first_offset : Nat
  num_payloads : Nat
  future_last_committed : Nat
deriving DecidableEq

/-- The worker task's state: the shared loglet state plus the run loop's
locals and in-flight sets. panicked records that the task hit the
unimplemented repair-store path and is dead. -/
structure WorkerState where
  state : LogletState
  staging_local_tail : Nat
  known_global_tail : Nat
  sealing_in_progress : Bool
  in_flight_stores : List PendingStore
  waiting_for_seal : List GenerationalNodeId
  in_flight_seal : Bool
  panicked : Bool
deriving DecidableEq

/-- One event of the run loop: either a message dequeued from an inbox or the
completion of an in-flight future. Boolean parameters resolve the log store's
answers (true = accepted/durable, false = fail-safe). -/
inductive Event where
  | storeMsg (peer : GenerationalNodeId) (body : Store) (enqueue_ok : Bool)
  | storeCompleted (idx : Nat) (ok : Bool)
  | sealMsg (peer : GenerationalNodeId) (known_global_tail : Nat) (enqueue_ok : Bool)
  | sealCompleted
  | sealWaiterFires (idx : Nat)
  | releaseMsg (known_global_tail : Nat)
  | trackerChanged (v : Nat)
  | getLogletInfoMsg (known_global_tail : Nat)
  | getRecordsMsg (known_global_tail : Nat)
  | trimMsg (known_global_tail trim_point : Nat) (enqueue_ok completion_ok : Bool)
deriving DecidableEq

/-- A response shipped back to a peer, tagged with the identity of the
request it answers. -/
inductive Response where
  | stored (peer : GenerationalNodeId) (first_offset : Nat)
      (num_payloads : Nat) (status : Status) (local_tail : TailView)
  | sealedResp (peer : GenerationalNodeId) (status : Status) (local_tail : TailView)
  | logletInfo (local_tail : TailView) (trim_point : Nat)
  | trimmed (status : Status) (local_tail : TailView)
deriving DecidableEq

/-- One iteration of the worker's select loop, translated branch by branch
from LogletWorker::run. A panicked worker does nothing. Responses whose
sending the source defers to in_flight_network_sends or to disposable tasks
are emitted at the step that determines them. -/
def step (s : WorkerState) (e : Event) : WorkerState × List Response :=
  if s.panicked then (s, []) else
  match e with
  | .storeMsg peer body ok =>
    let kgt := max s.known_global_tail body.known_global_tail
    let next_ok := max s.staging_local_tail kgt
    match process_store s.state peer body s.staging_local_tail next_ok
        s.sealing_in_progress ok with
    | none => ({ s with known_global_tail := kgt, panicked := true }, [])
    | some out =>
      if out.enqueued then
        ({ s with known_global_tail := kgt, state := out.state,
                  staging_local_tail := out.staging_local_tail,
                  in_flight_stores := s.in_flight_stores ++
                    [⟨peer, body.first_offset, body.payloads.length,
                      out.staging_local_tail⟩] }, [])
      else
        ({ s with known_global_tail := kgt, state := out.state,
                  staging_local_tail := out.staging_local_tail },
         [.stored peer body.first_offset body.payloads.length out.status
            out.state.local_tail])
  | .storeCompleted idx ok =>
    match s.in_flight_stores.get? idx with
    | none => (s, [])
    | some p =>
      let rest := s.in_flight_stores.eraseIdx idx
      if ok then
        let st1 := s.state.notify_offset_update p.future_last_committed
        ({ s with state := st1, in_flight_stores := rest },
         [.stored p.peer p.first_offset p.num_payloads .Ok st1.local_tail])
      else
        ({ s with in_flight_stores := rest },
         [.stored p.peer p.first_offset p.num_payloads .Disabled
            ⟨LogletOffset.INVALID, false⟩])
  | .sealMsg peer kg ok =>
    let kgt := max s.known_global_tail kg
    let waiting := s.waiting_for_seal ++ [peer]
    let pair := process_seal s.state ok
    ({ s with known_global_tail := kgt, waiting_for_seal := waiting,
              sealing_in_progress := pair.1,
              in_flight_seal := if pair.2 then true else s.in_flight_seal }, [])
  | .sealCompleted =>
    if s.in_flight_seal then
      ({ s with sealing_in_progress := false, state := s.state.notify_seal,
                in_flight_seal := false }, [])
    else (s, [])
  | .sealWaiterFires idx =>
    match s.waiting_for_seal.get? idx with
    | none => (s, [])
    | some peer =>
      if s.state.is_sealed then
        ({ s with waiting_for_seal := s.waiting_for_seal.eraseIdx idx },
         [.sealedResp peer .Ok s.state.local_tail])
      else (s, [])
  | .releaseMsg kg =>
    ({ s with known_global_tail := max s.known_global_tail kg }, [])
  | .trackerChanged v =>
    ({ s with known_global_tail := max s.known_global_tail v }, [])
  | .getLogletInfoMsg kg =>
    ({ s with known_global_tail := max s.known_global_tail kg },
     [.logletInfo s.state.local_tail s.state.trim_point])
  | .getRecordsMsg kg =>
    ({ s with known_global_tail := max s.known_global_tail kg }, [])
  | .trimMsg kg tp eok cok =>
    let kgt := max s.known_global_tail kg
    let out := process_trim s.state kgt tp eok cok
    ({ s with known_global_tail := kgt, state := out.state },
     match out.response with
     | some r => [.trimmed r.1 r.2]
     | none => [])

/-- Run the loop over a list of events, collecting responses in order. -/
def exec (s : WorkerState) (evs : List Event) : WorkerState × List Response :=
  match evs with
  | [] => (s, [])
  | e :: rest =>
    let p := step s e
    let q := exec p.1 rest
    (q.1, p.2 ++ q.2)

/-- The worker's state right after LogletWorker::run initializes its locals:
staging tail at the loaded local tail, empty in-flight sets, no seal gate. -/
def initialState (st : LogletState) (tracker : Nat) : WorkerState :=
  { state := st
    staging_local_tail := st.local_tail.offset
    known_global_tail := tracker
    sealing_in_progress := false
    in_flight_stores := []
    waiting_for_seal := []
    in_flight_seal := false
    panicked := false }

/-- The admission cascade exactly as the spec words it (a refinement
specification to compare with process_store): the rejection status, or none
when every admission check passes. -/
def admission_status (st : LogletState) (peer : GenerationalNodeId) (body : Store)
    (staging_local_tail known_global_tail : Nat)
    (sealing_in_progress : Bool) : Option Status :=
  let next_ok_offset := max staging_local_tail known_global_tail
  if st.is_sealed && !body.flags.ignore_seal then some .Sealed
  else if sealing_in_progress then some .Sealing
  else if body.expired then some .Dropped
  else if body.payloads.isEmpty = true ∨ body.last_offset = none ∨
          body.first_offset = LogletOffset.INVALID then some .Malformed
  else if sequencer_mismatch st body then some .SequencerMismatch
  else if body.first_offset < next_ok_offset ∧ peer ≠ body.sequencer then
    some .SequencerMismatch
  else if body.first_offset > next_ok_offset then some .OutOfBounds
  else none

/-- Any outcome of process_store leaves the local tail and the trim point of
the loglet state untouched (only the sequencer may be recorded). -/
theorem process_store_preserves_tail (st : LogletState) (peer : GenerationalNodeId)
    (body : Store) (staging nok : Nat) (sealing ok : Bool)
    (out : StoreOutcome)
    (h : process_store st peer body staging nok sealing ok = some out) :
    out.state.local_tail = st.local_tail ∧ out.state.trim_point = st.trim_point := by
  unfold process_store at h
  repeat' split at h
  all_goals
    first
      | exact Option.noConfusion h
      | (injection h with h
         subst h
         exact ⟨rfl, rfl⟩)
      | (injection h with h
         subst h
         cases hsq : st.sequencer <;> simp_all [LogletState.set_sequencer])

/-- A computable last_offset pins down its value: there is at least one
payload and the last offset is first_offset + len(payloads) - 1. -/
theorem last_offset_spec (body : Store) (l : Nat)
    (h : body.last_offset = some l) :
    body.payloads.length ≠ 0 ∧ l = body.first_offset + body.payloads.length - 1 := by
  unfold Store.last_offset at h
  split_ifs at h <;>
    first
      | exact Option.noConfusion h
      | exact ⟨by assumption, (Option.some.inj h).symm⟩

/-- When process_store obtains a completion token, the status is Ok and the
staging local tail advances to first_offset + len(payloads). -/
theorem process_store_enqueued_spec (st : LogletState) (peer : GenerationalNodeId)
    (body : Store) (staging nok : Nat) (sealing ok : Bool)
    (out : StoreOutcome)
    (h : process_store st peer body staging nok sealing ok = some out)
    (henq : out.enqueued = true) :
    out.status = .Ok ∧
    out.staging_local_tail = body.first_offset + body.payloads.length := by
  unfold process_store at h
  repeat' split at h
  all_goals
    first
      | exact Option.noConfusion h
      | (injection h with h
         subst h
         simp at henq
         done)
      | (injection h with h
         subst h
         rename body.last_offset = some _ => heq
         refine ⟨rfl, ?_⟩
         have hlen := last_offset_spec body _ heq
         have h1 := hlen.1
         have h2 := hlen.2
         dsimp only [LogletOffset.next]
         omega)

/-- When process_store does not obtain a completion token, the status is
never Ok and the staging local tail is unchanged. -/
theorem process_store_not_enqueued_spec (st : LogletState) (peer : GenerationalNodeId)
    (body : Store) (staging nok : Nat) (sealing ok : Bool)
    (out : StoreOutcome)
    (h : process_store st peer body staging nok sealing ok = some out)
    (henq : out.enqueued = false) :
    out.status ≠ .Ok ∧ out.staging_local_tail = staging := by
  unfold process_store at h
  repeat' split at h
  all_goals
    first
      | exact Option.noConfusion h
      | (injection h with h
         subst h
         simp at henq
         done)
      | (injection h with h; subst h; exact ⟨by simp, rfl⟩)

/-- On a loglet that is sealed or has a seal in progress, a store without
IgnoreSeal is rejected with Sealed or Sealing and nothing changes. -/
theorem process_store_seal_gate (st : LogletState) (peer : GenerationalNodeId)
    (body : Store) (staging nok : Nat) (sealing ok : Bool)
    (hflag : body.flags.ignore_seal = false)
    (hgate : st.is_sealed = true ∨ sealing = true) :
    process_store st peer body staging nok sealing ok
      = some ⟨if st.is_sealed then .Sealed else .Sealing, false, staging, st⟩ := by
  unfold process_store
  cases hs : st.is_sealed with
  | true => simp [hflag, hs]
  | false =>
    rcases hgate with hgate | hgate
    · rw [hs] at hgate; exact absurd hgate (by simp)
    · simp [hflag, hs, hgate]

/-- For a store without IgnoreSeal, process_store is exactly the spec's
admission cascade followed (on acceptance) by the enqueue: a cascade
rejection is returned verbatim with no state change and no log-store work,
and an accepted store either obtains a token with status Ok or answers
Disabled when the log store is in fail-safe, after recording the sequencer
if it was unset. -/
theorem process_store_cascade (st : LogletState) (peer : GenerationalNodeId)
    (body : Store) (staging kgt : Nat) (sealing ok : Bool)
    (hflag : body.flags.ignore_seal = false) :
    process_store st peer body staging (max staging kgt) sealing ok
      = match admission_status st peer body staging kgt sealing with
        | some s => some ⟨s, false, staging, st⟩
        | none =>
          if ok then
            some ⟨.Ok, true,
              LogletOffset.next ((body.last_offset).getD LogletOffset.INVALID),
              (if st.sequencer = none then st.set_sequencer body.sequencer
               else (st, false)).1⟩
          else
            some ⟨.Disabled, false, staging,
              (if st.sequencer = none then st.set_sequencer body.sequencer
               else (st, false)).1⟩ := by
  by_cases h1 : st.is_sealed = true
  · simp [process_store, admission_status, hflag, h1]
  by_cases h2 : sealing = true
  · simp [process_store, admission_status, hflag, h1, h2]
  by_cases h3 : body.expired = true
  · simp [process_store, admission_status, hflag, h1, h2, h3]
  by_cases hemp : body.payloads.isEmpty = true
  · simp [process_store, admission_status, hflag, h1, h2, h3, hemp]
  cases hlo : body.last_offset with
  | none => simp [process_store, admission_status, hflag, h1, h2, h3, hemp, hlo]
  | some l =>
    by_cases hinv : body.first_offset = LogletOffset.INVALID
    · simp [process_store, admission_status, hflag, h1, h2, h3, hemp, hlo, hinv]
    by_cases h5 : sequencer_mismatch st body = true
    · simp [process_store, admission_status, hflag, h1, h2, h3, hemp, hlo, hinv, h5]
    by_cases h6 : body.first_offset < max staging kgt ∧ peer ≠ body.sequencer
    · simp [process_store, admission_status, hflag, h1, h2, h3, hemp, hlo, hinv, h5, h6]
    have h6c : ¬((body.first_offset < staging ∨ body.first_offset < kgt) ∧
        ¬peer = body.sequencer) := by
      intro hcon
      apply h6
      refine ⟨?_, hcon.2⟩
      rcases hcon.1 with hlt | hlt
      · exact lt_of_lt_of_le hlt (le_max_left _ _)
      · exact lt_of_lt_of_le hlt (le_max_right _ _)
    by_cases h7 : body.first_offset > max staging kgt
    · have h7a := lt_of_le_of_lt (le_max_left staging kgt) h7
      have h7b := lt_of_le_of_lt (le_max_right staging kgt) h7
      simp [process_store, admission_status, hflag, h1, h2, h3, hemp, hlo, hinv, h5,
        h6c, h7a, h7b]
    have h7c : ¬(staging < body.first_offset ∧ kgt < body.first_offset) := by
      intro hcon
      exact h7 (max_lt hcon.1 hcon.2)
    cases ok <;>
      simp [process_store, admission_status, hflag, h1, h2, h3, hemp, hlo, hinv, h5,
        h6c, h7c]

/-- When the spec's admission cascade rejects a store without IgnoreSeal,
process_store returns exactly that rejection status with no log-store
enqueue, unchanged staging tail and unchanged loglet state. -/
theorem process_store_of_admission_some (st : LogletState) (peer : GenerationalNodeId)
    (body : Store) (staging kgt : Nat) (sealing ok : Bool) (s : Status)
    (hflag : body.flags.ignore_seal = false)
    (hs : admission_status st peer body staging kgt sealing = some s) :
    process_store st peer body staging (max staging kgt) sealing ok
      = some ⟨s, false, staging, st⟩ := by
  rw [process_store_cascade st peer body staging kgt sealing ok hflag, hs]

/-- When the spec's admission cascade accepts a store without IgnoreSeal,
process_store reaches the enqueue: it obtains a token with status Ok when
the log store accepts, and answers Disabled without a token when the log
store is in fail-safe. -/
theorem process_store_of_admission_none (st : LogletState) (peer : GenerationalNodeId)
    (body : Store) (staging kgt : Nat) (sealing ok : Bool)
    (hflag : body.flags.ignore_seal = false)
    (hs : admission_status st peer body staging kgt sealing = none) :
    ∃ out, process_store st peer body staging (max staging kgt) sealing ok = some out ∧
      out.enqueued = ok ∧ out.status = (if ok then .Ok else .Disabled) := by
  rw [process_store_cascade st peer body staging kgt sealing ok hflag, hs]
  cases ok <;> exact ⟨_, rfl, rfl, rfl⟩

/-- C1 counterexample: at this concrete input (an IgnoreSeal store whose
first_offset exceeds next_ok_offset on a fresh, unsealed loglet) the
claimed cascade yields OutOfBounds, but process_store yields no status at
all: it hits the unimplemented repair-store path and panics, so the claimed
admission result is not returned. -/
theorem store_admission_ignore_seal_cex :
    admission_status ⟨⟨1, false⟩, 0, none⟩ ⟨1, 1⟩
      ⟨5, [0], ⟨1, 1⟩, ⟨true⟩, false, 0⟩ 1 0 false = some .OutOfBounds ∧
    process_store ⟨⟨1, false⟩, 0, none⟩ ⟨1, 1⟩
      ⟨5, [0], ⟨1, 1⟩, ⟨true⟩, false, 0⟩ 1 (max 1 0) false true = none := by
  constructor <;> decide

/-- C9 counterexample: a Store on an already-sealed loglet whose
first_offset (100) is strictly greater than max(staging_local_tail,
known_global_tail) = 1 is answered Sealed, not OutOfBounds: the seal check
fires before the bounds check. -/
theorem sealed_out_of_bounds_cex :
    (100 > max 1 0) ∧
    process_store ⟨⟨1, true⟩, 0, none⟩ ⟨1, 1⟩
      ⟨100, [0], ⟨1, 1⟩, ⟨false⟩, false, 0⟩ 1 (max 1 0) false true
      = some ⟨.Sealed, false, 1, ⟨⟨1, true⟩, 0, none⟩⟩ ∧
    Status.Sealed ≠ Status.OutOfBounds := by
  refine ⟨by decide, by decide, by decide⟩

/-- C7 counterexample: a fully admissible Store on a loglet with no recorded
sequencer whose log-store enqueue fails is answered Disabled, but the
in-memory state did change: the sequencer was recorded before the enqueue
attempt and stays recorded. -/
theorem store_disabled_sets_sequencer_cex :
    process_store ⟨⟨1, false⟩, 0, none⟩ ⟨1, 1⟩
      ⟨1, [0], ⟨1, 1⟩, ⟨false⟩, false, 0⟩ 1 1 false false
      = some ⟨.Disabled, false, 1, ⟨⟨1, false⟩, 0, some ⟨1, 1⟩⟩⟩ ∧
    (⟨⟨1, false⟩, 0, some ⟨1, 1⟩⟩ : LogletState) ≠ ⟨⟨1, false⟩, 0, none⟩ := by
  constructor <;> decide

/-- C8 counterexample: a valid, advancing Trim (local tail 7, requested trim
point 5, known global tail 10) whose log-store enqueue reports fail-safe
produces no response at all - the error propagates out of the trim task - so
the peer does not receive a Disabled response. -/
theorem trim_enqueue_disabled_no_response_cex :
    (process_trim ⟨⟨7, false⟩, 0, none⟩ 10 5 false false).response = none ∧
    (process_trim ⟨⟨7, false⟩, 0, none⟩ 10 5 false false).state.trim_point = 5 := by
  constructor <;> decide

/-- C2 counterexample: a Seal is processed and completes, and a later Store
carrying IgnoreSeal that is expired receives status Dropped - neither
Sealing nor Sealed - because IgnoreSeal skips the seal check and the expiry
check fires next. -/
theorem seal_then_ignore_seal_store_cex :
    (exec (initialState ⟨⟨1, false⟩, 0, none⟩ 0)
      [.sealMsg ⟨1, 1⟩ 0 true, .sealCompleted,
       .storeMsg ⟨2, 1⟩ ⟨5, [0], ⟨1, 1⟩, ⟨true⟩, true, 0⟩ true]).2
      = [.stored ⟨2, 1⟩ 5 1 .Dropped ⟨1, true⟩] ∧
    Status.Dropped ≠ Status.Sealing ∧ Status.Dropped ≠ Status.Sealed := by
  refine ⟨by decide, by decide, by decide⟩

/-- C6: Trim handling. If the requested trim point is below OLDEST or at or
above the high watermark (max of known global tail and local tail), the
response is Malformed and the trim point is unchanged. Otherwise the request
is clipped to min(trim_point, local_tail.prev()) and the in-memory trim
point advances to the max of its current value and the clipped value; when
the clipped value does not advance it, the response is Trimmed(local_tail)
with status Ok and no log-store trim is issued. -/
theorem trim_handling (st : LogletState) (kgt tp : Nat) (eok cok : Bool) :
    (tp < LogletOffset.OLDEST ∨ tp ≥ max kgt st.local_tail.offset →
      process_trim st kgt tp eok cok = ⟨some (.Malformed, st.local_tail), st, false⟩) ∧
    (LogletOffset.OLDEST ≤ tp → tp < max kgt st.local_tail.offset →
      (process_trim st kgt tp eok cok).state.trim_point
        = max st.trim_point (min tp (LogletOffset.prev st.local_tail.offset)) ∧
      (min tp (LogletOffset.prev st.local_tail.offset) ≤ st.trim_point →
        process_trim st kgt tp eok cok = ⟨some (.Ok, st.local_tail), st, false⟩)) := by
  constructor
  · intro h
    unfold process_trim
    rw [if_pos h]
  · intro h1 h2
    have hcond : ¬(tp < LogletOffset.OLDEST ∨ tp ≥ max kgt st.local_tail.offset) := by
      push_neg
      exact ⟨h1, h2⟩
    by_cases hadv : st.trim_point < min tp (LogletOffset.prev st.local_tail.offset)
    · constructor
      · have hmax : max st.trim_point (min tp (LogletOffset.prev st.local_tail.offset))
            = min tp (LogletOffset.prev st.local_tail.offset) := max_eq_right hadv.le
        simp only [process_trim, LogletState.update_trim_point, if_neg hcond,
          if_pos hadv, hmax]
        cases eok <;> cases cok <;> simp
      · intro hle
        exact absurd (lt_of_lt_of_le hadv hle) (lt_irrefl _)
    · constructor
      · have hmax : max st.trim_point (min tp (LogletOffset.prev st.local_tail.offset))
            = st.trim_point := max_eq_left (not_lt.mp hadv)
        simp only [process_trim, LogletState.update_trim_point, if_neg hcond,
          if_neg hadv, hmax]
        simp
      · intro _
        simp only [process_trim, LogletState.update_trim_point, if_neg hcond,
          if_neg hadv]
        simp

/-- Witness for trim_handling: on a loglet with local tail 7 and trim point
6, a Trim to 9 with known global tail 10 is clipped to 6 and does not
advance, so the response is Trimmed(local_tail) with status Ok and no
log-store trim is issued; and a Trim to 12 is Malformed. -/
theorem trim_handling_witness :
    process_trim ⟨⟨7, false⟩, 6, none⟩ 10 12 true true
      = ⟨some (.Malformed, ⟨7, false⟩), ⟨⟨7, false⟩, 6, none⟩, false⟩ ∧
    process_trim ⟨⟨7, false⟩, 6, none⟩ 10 9 true true
      = ⟨some (.Ok, ⟨7, false⟩), ⟨⟨7, false⟩, 6, none⟩, false⟩ := by
  constructor
  · exact (trim_handling ⟨⟨7, false⟩, 6, none⟩ 10 12 true true).1 (by decide)
  · exact ((trim_handling ⟨⟨7, false⟩, 6, none⟩ 10 9 true true).2
      (by decide) (by decide)).2 (by decide)

/-- C1 (amended): for every Store request not carrying IgnoreSeal, the
worker's admission check returns exactly the status given by evaluating, in
this order: sealed -> Sealed; sealing in progress -> Sealing; expired ->
Dropped; empty payloads or unresolvable last_offset or INVALID first_offset
-> Malformed; recorded-sequencer mismatch -> SequencerMismatch; backfill
from a non-sequencer peer -> SequencerMismatch; first_offset beyond
next_ok_offset -> OutOfBounds; and in every rejection case no log-store I/O
is performed and staging_local_tail and the loglet state are unchanged.
(A request carrying IgnoreSeal that passes the checks up to the sequencer
checks instead hits the unimplemented repair-store path and panics.) -/
theorem store_admission_cascade (st : LogletState) (peer : GenerationalNodeId)
    (body : Store) (staging kgt : Nat) (sealing enqueue_ok : Bool)
    (hflag : body.flags.ignore_seal = false) :
    (∀ s, admission_status st peer body staging kgt sealing = some s →
      process_store st peer body staging (max staging kgt) sealing enqueue_ok
        = some ⟨s, false, staging, st⟩) ∧
    (admission_status st peer body staging kgt sealing = none →
      ∃ out, process_store st peer body staging (max staging kgt) sealing enqueue_ok
          = some out ∧ out.enqueued = enqueue_ok ∧
        out.status = (if enqueue_ok then .Ok else .Disabled)) := by
  constructor
  · intro s hs
    exact process_store_of_admission_some st peer body staging kgt sealing enqueue_ok
      s hflag hs
  · intro hs
    exact process_store_of_admission_none st peer body staging kgt sealing enqueue_ok
      hflag hs

/-- Witness for store_admission_cascade: a fresh worker (staging tail 1, no
global-tail knowledge) rejects a store at offset 5 as OutOfBounds with
nothing changed, exactly as the cascade dictates. -/
theorem store_admission_cascade_witness :
    process_store ⟨⟨1, false⟩, 0, none⟩ ⟨1, 1⟩
      ⟨5, [0], ⟨1, 1⟩, ⟨false⟩, false, 0⟩ 1 (max 1 0) false true
      = some ⟨.OutOfBounds, false, 1, ⟨⟨1, false⟩, 0, none⟩⟩ :=
  (store_admission_cascade ⟨⟨1, false⟩, 0, none⟩ ⟨1, 1⟩
    ⟨5, [0], ⟨1, 1⟩, ⟨false⟩, false, 0⟩ 1 0 false true rfl).1 .OutOfBounds (by decide)

/-- C7 (amended): when the log store signals shutdown/fail-safe for a Store
request (without IgnoreSeal) that passed all admission checks, the worker
responds with status Disabled, obtains no completion token, does not advance
staging_local_tail, and publishes no tail change and no trim change; the one
in-memory effect that does happen is that an unset sequencer has already
been recorded before the enqueue attempt and stays recorded. -/
theorem store_disabled_response (st : LogletState) (peer : GenerationalNodeId)
    (body : Store) (staging kgt : Nat) (sealing : Bool)
    (hflag : body.flags.ignore_seal = false)
    (hadm : admission_status st peer body staging kgt sealing = none) :
    process_store st peer body staging (max staging kgt) sealing false
      = some ⟨.Disabled, false, staging,
          (if st.sequencer = none then st.set_sequencer body.sequencer
           else (st, false)).1⟩ ∧
    ((if st.sequencer = none then st.set_sequencer body.sequencer
      else (st, false)).1).local_tail = st.local_tail ∧
    ((if st.sequencer = none then st.set_sequencer body.sequencer
      else (st, false)).1).trim_point = st.trim_point := by
  refine ⟨?_, ?_, ?_⟩
  · rw [process_store_cascade st peer body staging kgt sealing false hflag, hadm]
    rfl
  · cases hsq : st.sequencer <;> simp [hsq, LogletState.set_sequencer]
  · cases hsq : st.sequencer <;> simp [hsq, LogletState.set_sequencer]

/-- Witness for store_disabled_response: at a concrete admissible store
whose enqueue fails, the response is Disabled and the state change is
exactly the recorded sequencer. -/
theorem store_disabled_response_witness :
    process_store ⟨⟨1, false⟩, 0, none⟩ ⟨1, 1⟩
      ⟨1, [0], ⟨1, 1⟩, ⟨false⟩, false, 0⟩ 1 (max 1 0) false false
      = some ⟨.Disabled, false, 1, ⟨⟨1, false⟩, 0, some ⟨1, 1⟩⟩⟩ :=
  (store_disabled_response ⟨⟨1, false⟩, 0, none⟩ ⟨1, 1⟩
    ⟨1, [0], ⟨1, 1⟩, ⟨false⟩, false, 0⟩ 1 0 false rfl (by decide)).1

/-- C9 (amended): a Store request whose first_offset is strictly greater
than max(staging_local_tail, known_global_tail) at admission time (after
merging the request's own global-tail hint), and which is not rejected by
one of the earlier admission checks and does not carry IgnoreSeal, is
answered with status OutOfBounds. -/
theorem store_out_of_bounds (s : WorkerState) (peer : GenerationalNodeId)
    (body : Store) (ok : Bool)
    (hp : s.panicked = false)
    (hflag : body.flags.ignore_seal = false)
    (hsealed : s.state.is_sealed = false)
    (hsealing : s.sealing_in_progress = false)
    (hexp : body.expired = false)
    (hne : body.payloads.isEmpty = false)
    (hlast : body.last_offset ≠ none)
    (hinv : body.first_offset ≠ LogletOffset.INVALID)
    (hseq : sequencer_mismatch s.state body = false)
    (hoob : max s.staging_local_tail (max s.known_global_tail body.known_global_tail)
      < body.first_offset) :
    (step s (.storeMsg peer body ok)).2
      = [Response.stored peer body.first_offset body.payloads.length .OutOfBounds
          s.state.local_tail] := by
  have hnb : ¬(body.first_offset
      < max s.staging_local_tail (max s.known_global_tail body.known_global_tail)) := by
    omega
  have hadm : admission_status s.state peer body s.staging_local_tail
      (max s.known_global_tail body.known_global_tail) s.sealing_in_progress
      = some .OutOfBounds := by
    unfold admission_status
    cases hlo : body.last_offset with
    | none => exact absurd hlo hlast
    | some l =>
      simp [hflag, hsealed, hsealing, hexp, hne, hlo, hinv, hseq, hnb, hoob]
  have hps := process_store_of_admission_some s.state peer body s.staging_local_tail
    (max s.known_global_tail body.known_global_tail) s.sealing_in_progress ok
    .OutOfBounds hflag hadm
  simp only [step, hp, Bool.false_eq_true, if_false, hps]

/-- Witness for store_out_of_bounds: a fresh worker answers a store at
offset 5 with OutOfBounds. -/
theorem store_out_of_bounds_witness :
    (step (initialState ⟨⟨1, false⟩, 0, none⟩ 0)
        (.storeMsg ⟨1, 1⟩ ⟨5, [0], ⟨1, 1⟩, ⟨false⟩, false, 0⟩ true)).2
      = [Response.stored ⟨1, 1⟩ 5 1 .OutOfBounds ⟨1, false⟩] :=
  store_out_of_bounds (initialState ⟨⟨1, false⟩, 0, none⟩ 0) ⟨1, 1⟩
    ⟨5, [0], ⟨1, 1⟩, ⟨false⟩, false, 0⟩ true rfl rfl rfl rfl rfl rfl
    (by decide) (by decide) rfl (by decide)

/-- C10: a Store carrying IgnoreSeal that passes every admission check (no
seal in progress, not expired, well-formed, sequencer matches, not an
out-of-order backfill from a foreign peer, first_offset at or below
next_ok_offset) drives process_store into the unimplemented repair-store
todo and panics the worker task: the store is never enqueued with the log
store, no response is emitted, and the dead worker never reacts again. -/
theorem ignore_seal_panics (s : WorkerState) (peer : GenerationalNodeId)
    (body : Store) (ok : Bool)
    (hp : s.panicked = false)
    (hflag : body.flags.ignore_seal = true)
    (hsealing : s.sealing_in_progress = false)
    (hexp : body.expired = false)
    (hne : body.payloads.isEmpty = false)
    (hlast : body.last_offset ≠ none)
    (hinv : body.first_offset ≠ LogletOffset.INVALID)
    (hseq : sequencer_mismatch s.state body = false)
    (hback : body.first_offset
        < max s.staging_local_tail (max s.known_global_tail body.known_global_tail)
      → peer = body.sequencer)
    (hle : body.first_offset
      ≤ max s.staging_local_tail (max s.known_global_tail body.known_global_tail)) :
    (step s (.storeMsg peer body ok)).1.panicked = true ∧
    (step s (.storeMsg peer body ok)).2 = [] ∧
    (step s (.storeMsg peer body ok)).1.in_flight_stores = s.in_flight_stores ∧
    (∀ (s2 : WorkerState) (e : Event), s2.panicked = true → step s2 e = (s2, [])) := by
  have hps : process_store s.state peer body s.staging_local_tail
      (max s.staging_local_tail (max s.known_global_tail body.known_global_tail))
      s.sealing_in_progress ok = none := by
    unfold process_store
    cases hlo : body.last_offset with
    | none => exact absurd hlo hlast
    | some l =>
      simp [hflag, hsealing, hexp, hne, hlo, hinv, hseq]
      intro hsplit
      apply hback
      rcases hsplit with h | h | h
      · exact lt_of_lt_of_le h (le_max_left _ _)
      · exact lt_of_lt_of_le h (le_trans (le_max_left _ _) (le_max_right _ _))
      · exact lt_of_lt_of_le h (le_trans (le_max_right _ _) (le_max_right _ _))
  refine ⟨?_, ?_, ?_, ?_⟩
  · simp only [step, hp, Bool.false_eq_true, if_false, hps]
  · simp only [step, hp, Bool.false_eq_true, if_false, hps]
  · simp only [step, hp, Bool.false_eq_true, if_false, hps]
  · intro s2 e h2
    unfold step
    rw [if_pos h2]

/-- Witness for ignore_seal_panics: a fresh worker hit by an in-range
IgnoreSeal store panics, emits nothing and keeps no in-flight store. -/
theorem ignore_seal_panics_witness :
    (step (initialState ⟨⟨1, false⟩, 0, none⟩ 0)
        (.storeMsg ⟨1, 1⟩ ⟨1, [0], ⟨1, 1⟩, ⟨true⟩, false, 0⟩ true)).1.panicked = true ∧
    (step (initialState ⟨⟨1, false⟩, 0, none⟩ 0)
        (.storeMsg ⟨1, 1⟩ ⟨1, [0], ⟨1, 1⟩, ⟨true⟩, false, 0⟩ true)).2 = [] ∧
    (step (initialState ⟨⟨1, false⟩, 0, none⟩ 0)
        (.storeMsg ⟨1, 1⟩ ⟨1, [0], ⟨1, 1⟩, ⟨true⟩, false, 0⟩ true)).1.in_flight_stores
      = [] := by
  have h := ignore_seal_panics (initialState ⟨⟨1, false⟩, 0, none⟩ 0) ⟨1, 1⟩
    ⟨1, [0], ⟨1, 1⟩, ⟨true⟩, false, 0⟩ true rfl rfl rfl rfl rfl
    (by decide) (by decide) rfl (by decide) (by decide)
  exact ⟨h.1, h.2.1, h.2.2.1⟩

/-- A panicked worker task is dead: every step leaves the state unchanged
and emits nothing. -/
theorem step_panicked_frozen (s : WorkerState) (e : Event)
    (h : s.panicked = true) : step s e = (s, []) := by
  unfold step
  rw [if_pos h]

/-- A step never clears the panicked flag. -/
theorem step_panicked_mono (s : WorkerState) (e : Event)
    (h : (step s e).1.panicked = false) : s.panicked = false := by
  by_cases hp : s.panicked = true
  · rw [step_panicked_frozen s e hp] at h
    exact absurd h (by simp [hp])
  · exact Bool.not_eq_true _ |>.mp hp

/-- Execution never clears the panicked flag. -/
theorem exec_panicked_mono (evs : List Event) (s : WorkerState)
    (h : (exec s evs).1.panicked = false) : s.panicked = false := by
  induction evs generalizing s with
  | nil => exact h
  | cons e rest ih =>
    simp only [exec] at h
    exact step_panicked_mono s e (ih (step s e).1 h)

/-- Executing a concatenation runs the second list from the first list's
final state and concatenates the responses. -/
theorem exec_append (a b : List Event) (s : WorkerState) :
    exec s (a ++ b)
      = ((exec (exec s a).1 b).1, (exec s a).2 ++ (exec (exec s a).1 b).2) := by
  induction a generalizing s with
  | nil => simp [exec]
  | cons e rest ih =>
    simp only [List.cons_append, exec, List.append_eq, ih (step s e).1,
      List.append_assoc]

/-- The trim task never touches the local tail and never lowers the trim
point. -/
theorem process_trim_mono (st : LogletState) (kgt tp : Nat) (eok cok : Bool) :
    (process_trim st kgt tp eok cok).state.local_tail = st.local_tail ∧
    st.trim_point ≤ (process_trim st kgt tp eok cok).state.trim_point := by
  simp only [process_trim, LogletState.update_trim_point]
  split_ifs <;>
    first
      | exact ⟨rfl, le_refl _⟩
      | exact ⟨rfl, le_of_lt (by assumption)⟩

/-- The observable-state order of C3: local tail offset, sealed flag, trim
point and the cached known global tail are all at least what they were. -/
def obs_le (a b : WorkerState) : Prop :=
  a.state.local_tail.offset ≤ b.state.local_tail.offset ∧
  (a.state.local_tail.sealed = true → b.state.local_tail.sealed = true) ∧
  a.state.trim_point ≤ b.state.trim_point ∧
  a.known_global_tail ≤ b.known_global_tail

theorem obs_le_refl (s : WorkerState) : obs_le s s :=
  ⟨le_refl _, fun h => h, le_refl _, le_refl _⟩

theorem obs_le_trans (a b c : WorkerState) (h1 : obs_le a b) (h2 : obs_le b c) :
    obs_le a c :=
  ⟨le_trans h1.1 h2.1, fun h => h2.2.1 (h1.2.1 h),
   le_trans h1.2.2.1 h2.2.2.1, le_trans h1.2.2.2 h2.2.2.2⟩

/-- Every single step is monotone in the observable state. -/
theorem step_obs_le (s : WorkerState) (e : Event) : obs_le s (step s e).1 := by
  by_cases hp : s.panicked = true
  · rw [step_panicked_frozen s e hp]
    exact obs_le_refl s
  have hp2 : s.panicked = false := Bool.not_eq_true _ |>.mp hp
  cases e with
  | storeMsg peer body ok =>
    rcases hps : process_store s.state peer body s.staging_local_tail
        (max s.staging_local_tail (max s.known_global_tail body.known_global_tail))
        s.sealing_in_progress ok with _ | out
    · simp only [step, hp2, Bool.false_eq_true, if_false, hps]
      exact ⟨le_refl _, fun h => h, le_refl _, le_max_left _ _⟩
    · have hpres := process_store_preserves_tail s.state peer body
        s.staging_local_tail _ s.sealing_in_progress ok out hps
      simp only [step, hp2, Bool.false_eq_true, if_false, hps]
      by_cases henq : out.enqueued = true <;>
        simp only [henq, if_true, if_false, Bool.false_eq_true] <;>
        exact ⟨le_of_eq (congrArg TailView.offset hpres.1.symm),
          fun h => by rw [hpres.1]; exact h,
          le_of_eq hpres.2.symm, le_max_left _ _⟩
  | storeCompleted idx ok =>
    rcases hg : s.in_flight_stores.get? idx with _ | p
    · simp only [step, hp2, Bool.false_eq_true, if_false, hg]
      exact obs_le_refl s
    · simp only [step, hp2, Bool.false_eq_true, if_false, hg]
      by_cases hok : ok = true <;>
        simp only [hok, if_true, if_false, Bool.false_eq_true]
      · exact ⟨le_max_left _ _, fun h => h, le_refl _, le_refl _⟩
      · exact obs_le_refl s
  | sealMsg peer kg ok =>
    simp only [step, hp2, Bool.false_eq_true, if_false]
    exact ⟨le_refl _, fun h => h, le_refl _, le_max_left _ _⟩
  | sealCompleted =>
    simp only [step, hp2, Bool.false_eq_true, if_false]
    by_cases hifs : s.in_flight_seal = true <;>
      simp only [hifs, if_true, if_false, Bool.false_eq_true]
    · exact ⟨le_refl _, fun _ => rfl, le_refl _, le_refl _⟩
    · exact obs_le_refl s
  | sealWaiterFires idx =>
    simp only [step, hp2, Bool.false_eq_true, if_false]
    rcases hg : s.waiting_for_seal.get? idx with _ | p
    · exact obs_le_refl s
    · by_cases hsl : s.state.is_sealed = true <;>
        simp only [hsl, if_true, if_false, Bool.false_eq_true] <;>
        exact obs_le_refl s
  | releaseMsg kg =>
    simp only [step, hp2, Bool.false_eq_true, if_false]
    exact ⟨le_refl _, fun h => h, le_refl _, le_max_left _ _⟩
  | trackerChanged v =>
    simp only [step, hp2, Bool.false_eq_true, if_false]
    exact ⟨le_refl _, fun h => h, le_refl _, le_max_left _ _⟩
  | getLogletInfoMsg kg =>
    simp only [step, hp2, Bool.false_eq_true, if_false]
    exact ⟨le_refl _, fun h => h, le_refl _, le_max_left _ _⟩
  | getRecordsMsg kg =>
    simp only [step, hp2, Bool.false_eq_true, if_false]
    exact ⟨le_refl _, fun h => h, le_refl _, le_max_left _ _⟩
  | trimMsg kg tp eok cok =>
    have htm := process_trim_mono s.state (max s.known_global_tail kg) tp eok cok
    simp only [step, hp2, Bool.false_eq_true, if_false]
    exact ⟨le_of_eq (congrArg TailView.offset htm.1.symm),
      fun h => by rw [htm.1]; exact h, htm.2, le_max_left _ _⟩

/-- Execution from any state is monotone in the observable state. -/
theorem exec_obs_le (evs : List Event) (s : WorkerState) :
    obs_le s (exec s evs).1 := by
  induction evs generalizing s with
  | nil => exact obs_le_refl s
  | cons e rest ih =>
    simp only [exec]
    exact obs_le_trans _ _ _ (step_obs_le s e) (ih (step s e).1)

/-- C3: across every sequence of operations the worker processes, the
observable state is monotone: the local tail offset never decreases, the
sealed flag once true stays true, the trim point never decreases, and the
worker's cached known_global_tail never decreases. -/
theorem worker_state_monotone (s : WorkerState) (evs extra : List Event) :
    obs_le (exec s evs).1 (exec s (evs ++ extra)).1 := by
  rw [exec_append]
  exact exec_obs_le extra (exec s evs).1

/-- Invariant: every store handed to the log store recorded as its
future_last_committed exactly first_offset + number of payloads. -/
def pending_ok (s : WorkerState) : Prop :=
  ∀ p ∈ s.in_flight_stores,
    p.future_last_committed = p.first_offset + p.num_payloads

/-- Bound of C4 on one response: a Stored response with status Ok reports a
local tail at least first_offset + number of payloads. -/
def stored_ok_bound (r : Response) : Prop :=
  ∀ peer f n tl, r = Response.stored peer f n Status.Ok tl → f + n ≤ tl.offset

theorem step_stored_ok (s : WorkerState) (e : Event) (hp : pending_ok s) :
    pending_ok (step s e).1 ∧ ∀ r ∈ (step s e).2, stored_ok_bound r := by
  by_cases hpan : s.panicked = true
  · rw [step_panicked_frozen s e hpan]
    exact ⟨hp, by simp⟩
  have hp2 : s.panicked = false := Bool.not_eq_true _ |>.mp hpan
  cases e with
  | storeMsg peer body ok =>
    rcases hps : process_store s.state peer body s.staging_local_tail
        (max s.staging_local_tail (max s.known_global_tail body.known_global_tail))
        s.sealing_in_progress ok with _ | out
    · simp only [step, hp2, Bool.false_eq_true, if_false, hps]
      exact ⟨hp, by simp⟩
    · by_cases henq : out.enqueued = true
      · have hsp := process_store_enqueued_spec s.state peer body
          s.staging_local_tail _ s.sealing_in_progress ok out hps henq
        simp only [step, hp2, Bool.false_eq_true, if_false, hps, henq, if_true]
        refine ⟨?_, by simp⟩
        intro p hmem
        rcases List.mem_append.mp hmem with hmem | hmem
        · exact hp p hmem
        · rw [List.mem_singleton.mp hmem]
          exact hsp.2
      · have hne : out.enqueued = false := Bool.not_eq_true _ |>.mp henq
        have hsp := process_store_not_enqueued_spec s.state peer body
          s.staging_local_tail _ s.sealing_in_progress ok out hps hne
        simp only [step, hp2, Bool.false_eq_true, if_false, hps, hne]
        refine ⟨hp, ?_⟩
        intro r hr
        rw [List.mem_singleton.mp hr]
        intro peer2 f n tl heq
        injection heq with e1 e2 e3 e4 e5
        exact absurd e4 hsp.1
  | storeCompleted idx ok =>
    rcases hg : s.in_flight_stores.get? idx with _ | p
    · simp only [step, hp2, Bool.false_eq_true, if_false, hg]
      exact ⟨hp, by simp⟩
    · have hflc := hp p (List.get?_mem hg)
      by_cases hok : ok = true
      · simp only [step, hp2, Bool.false_eq_true, if_false, hg, hok, if_true]
        constructor
        · intro q hq
          exact hp q ((List.eraseIdx_sublist _ _).mem hq)
        · intro r hr
          rw [List.mem_singleton.mp hr]
          intro peer2 f n tl heq
          injection heq with e1 e2 e3 e4 e5
          subst e2
          subst e3
          subst e5
          simp only [LogletState.notify_offset_update]
          rw [← hflc]
          exact le_max_right _ _
      · have hne : ok = false := Bool.not_eq_true _ |>.mp hok
        simp only [step, hp2, Bool.false_eq_true, if_false, hg, hne]
        constructor
        · intro q hq
          exact hp q ((List.eraseIdx_sublist _ _).mem hq)
        · intro r hr
          rw [List.mem_singleton.mp hr]
          intro peer2 f n tl heq
          injection heq with e1 e2 e3 e4 e5
          exact absurd e4 (by simp)
  | sealMsg peer kg ok =>
    simp only [step, hp2, Bool.false_eq_true, if_false]
    exact ⟨hp, by simp⟩
  | sealCompleted =>
    simp only [step, hp2, Bool.false_eq_true, if_false]
    by_cases hifs : s.in_flight_seal = true <;>
      simp only [hifs, if_true, if_false, Bool.false_eq_true] <;>
      exact ⟨hp, by simp⟩
  | sealWaiterFires idx =>
    simp only [step, hp2, Bool.false_eq_true, if_false]
    rcases hg : s.waiting_for_seal.get? idx with _ | q
    · exact ⟨hp, by simp⟩
    · by_cases hsl : s.state.is_sealed = true <;>
        simp only [hsl, if_true, if_false, Bool.false_eq_true]
      · refine ⟨hp, ?_⟩
        intro r hr
        rw [List.mem_singleton.mp hr]
        intro peer2 f n tl heq
        exact Response.noConfusion heq
      · exact ⟨hp, by simp⟩
  | releaseMsg kg =>
    simp only [step, hp2, Bool.false_eq_true, if_false]
    exact ⟨hp, by simp⟩
  | trackerChanged v =>
    simp only [step, hp2, Bool.false_eq_true, if_false]
    exact ⟨hp, by simp⟩
  | getLogletInfoMsg kg =>
    simp only [step, hp2, Bool.false_eq_true, if_false]
    refine ⟨hp, ?_⟩
    intro r hr
    rw [List.mem_singleton.mp hr]
    intro peer2 f n tl heq
    exact Response.noConfusion heq
  | getRecordsMsg kg =>
    simp only [step, hp2, Bool.false_eq_true, if_false]
    exact ⟨hp, by simp⟩
  | trimMsg kg tp eok cok =>
    simp only [step, hp2, Bool.false_eq_true, if_false]
    refine ⟨hp, ?_⟩
    intro r hr
    rcases hresp : (process_trim s.state (max s.known_global_tail kg) tp eok cok).response
        with _ | q
    · rw [hresp] at hr
      exact absurd hr (by simp)
    · rw [hresp] at hr
      rw [List.mem_singleton.mp hr]
      intro peer2 f n tl heq
      exact Response.noConfusion heq

theorem exec_stored_ok (evs : List Event) (s : WorkerState) (hp : pending_ok s) :
    pending_ok (exec s evs).1 ∧ ∀ r ∈ (exec s evs).2, stored_ok_bound r := by
  induction evs generalizing s with
  | nil => exact ⟨hp, by simp [exec]⟩
  | cons e rest ih =>
    have h1 := step_stored_ok s e hp
    have h2 := ih (step s e).1 h1.1
    refine ⟨h2.1, ?_⟩
    intro r hr
    simp only [exec] at hr
    rcases List.mem_append.mp hr with hr | hr
    · exact h1.2 r hr
    · exact h2.2 r hr

/-- C4: every Stored response with status Ok that the worker ever emits
reports a local tail of at least first_offset + number of payloads: the
store completion advances the tail watch to last_offset.next() =
first_offset + len(payloads) before the watch value is read into the
response. -/
theorem stored_ok_tail_lower_bound (st0 : LogletState) (g0 : Nat)
    (evs : List Event) (peer : GenerationalNodeId) (f n : Nat) (tl : TailView)
    (hmem : Response.stored peer f n Status.Ok tl
      ∈ (exec (initialState st0 g0) evs).2) :
    f + n ≤ tl.offset := by
  have h := exec_stored_ok evs (initialState st0 g0) (by intro p hmem2; cases hmem2)
  exact h.2 _ hmem peer f n tl rfl

/-- Witness for stored_ok_tail_lower_bound: a two-record store at offset 1
completes with reported local tail 3, and 1 + 2 is at most 3. -/
theorem stored_ok_tail_lower_bound_witness :
    (1 : Nat) + 2 ≤ (⟨3, false⟩ : TailView).offset :=
  stored_ok_tail_lower_bound ⟨⟨1, false⟩, 0, none⟩ 0
    [.storeMsg ⟨1, 1⟩ ⟨1, [0, 1], ⟨1, 1⟩, ⟨false⟩, false, 0⟩ true,
     .storeCompleted 0 true] ⟨1, 1⟩ 1 2 ⟨3, false⟩ (by decide)

/-- The seal gate of C2: the loglet is sealed or a seal is in progress. -/
def seal_gate_on (s : WorkerState) : Prop :=
  s.state.local_tail.sealed = true ∨ s.sealing_in_progress = true

/-- Once the seal gate holds it holds after every further step. -/
theorem step_seal_gate (s : WorkerState) (e : Event) (h : seal_gate_on s) :
    seal_gate_on (step s e).1 := by
  by_cases hpan : s.panicked = true
  · rw [step_panicked_frozen s e hpan]
    exact h
  have hp2 : s.panicked = false := Bool.not_eq_true _ |>.mp hpan
  cases e with
  | storeMsg peer body ok =>
    rcases hps : process_store s.state peer body s.staging_local_tail
        (max s.staging_local_tail (max s.known_global_tail body.known_global_tail))
        s.sealing_in_progress ok with _ | out
    · simp only [step, hp2, Bool.false_eq_true, if_false, hps]
      exact h
    · have hpres := process_store_preserves_tail s.state peer body
        s.staging_local_tail _ s.sealing_in_progress ok out hps
      simp only [step, hp2, Bool.false_eq_true, if_false, hps]
      by_cases henq : out.enqueued = true <;>
        simp only [henq, if_true, if_false, Bool.false_eq_true] <;>
        (rcases h with h | h
         · exact Or.inl (by rw [hpres.1]; exact h)
         · exact Or.inr h)
  | storeCompleted idx ok =>
    rcases hg : s.in_flight_stores.get? idx with _ | p <;>
      simp only [step, hp2, Bool.false_eq_true, if_false, hg]
    · exact h
    · by_cases hok : ok = true <;>
        simp only [hok, if_true, if_false, Bool.false_eq_true]
      · rcases h with h | h
        · exact Or.inl h
        · exact Or.inr h
      · exact h
  | sealMsg peer kg ok =>
    simp only [step, hp2, Bool.false_eq_true, if_false]
    by_cases hsl : s.state.is_sealed = true
    · exact Or.inl hsl
    · simp only [process_seal, hsl, Bool.false_eq_true, if_false]
      exact Or.inr rfl
  | sealCompleted =>
    simp only [step, hp2, Bool.false_eq_true, if_false]
    by_cases hifs : s.in_flight_seal = true <;>
      simp only [hifs, if_true, if_false, Bool.false_eq_true]
    · exact Or.inl rfl
    · exact h
  | sealWaiterFires idx =>
    simp only [step, hp2, Bool.false_eq_true, if_false]
    rcases hg : s.waiting_for_seal.get? idx with _ | q
    · exact h
    · by_cases hsl : s.state.is_sealed = true <;>
        simp only [hsl, if_true, if_false, Bool.false_eq_true] <;>
        exact h
  | releaseMsg kg =>
    simp only [step, hp2, Bool.false_eq_true, if_false]
    exact h
  | trackerChanged v =>
    simp only [step, hp2, Bool.false_eq_true, if_false]
    exact h
  | getLogletInfoMsg kg =>
    simp only [step, hp2, Bool.false_eq_true, if_false]
    exact h
  | getRecordsMsg kg =>
    simp only [step, hp2, Bool.false_eq_true, if_false]
    exact h
  | trimMsg kg tp eok cok =>
    have htm := process_trim_mono s.state (max s.known_global_tail kg) tp eok cok
    simp only [step, hp2, Bool.false_eq_true, if_false]
    rcases h with h | h
    · exact Or.inl (by rw [htm.1]; exact h)
    · exact Or.inr h

/-- The seal gate is preserved by whole executions. -/
theorem exec_seal_gate (evs : List Event) (s : WorkerState)
    (h : seal_gate_on s) : seal_gate_on (exec s evs).1 := by
  induction evs generalizing s with
  | nil => exact h
  | cons e rest ih =>
    simp only [exec]
    exact ih (step s e).1 (step_seal_gate s e h)

/-- A live worker that processes a Seal message has the seal gate on
immediately afterwards. -/
theorem step_sealMsg_gate (s : WorkerState) (sp : GenerationalNodeId)
    (kg : Nat) (ok : Bool) (hp : s.panicked = false) :
    seal_gate_on (step s (.sealMsg sp kg ok)).1 := by
  simp only [step, hp, Bool.false_eq_true, if_false]
  by_cases hsl : s.state.is_sealed = true
  · exact Or.inl hsl
  · simp only [process_seal, hsl, Bool.false_eq_true, if_false]
    exact Or.inr rfl

/-- C2 (amended): every Seal processed before a later Store that does not
carry IgnoreSeal forces that Store's synchronously decided response status
to be Sealed or Sealing, provided the worker task is still alive (it has not
panicked on the unimplemented repair-store path): the seal gate is checked
synchronously on each store message, so no such store is ever accepted. -/
theorem seal_blocks_later_stores (st0 : LogletState) (g0 : Nat)
    (pre mid : List Event) (sp : GenerationalNodeId) (kg : Nat) (sok : Bool)
    (peer : GenerationalNodeId) (body : Store) (ok : Bool)
    (hflag : body.flags.ignore_seal = false)
    (hrun : (exec (initialState st0 g0)
      (pre ++ Event.sealMsg sp kg sok :: mid)).1.panicked = false) :
    ∃ stat,
      (step (exec (initialState st0 g0) (pre ++ Event.sealMsg sp kg sok :: mid)).1
          (Event.storeMsg peer body ok)).2
        = [Response.stored peer body.first_offset body.payloads.length stat
            (exec (initialState st0 g0)
              (pre ++ Event.sealMsg sp kg sok :: mid)).1.state.local_tail] ∧
      (stat = Status.Sealed ∨ stat = Status.Sealing) := by
  have hdec : (exec (initialState st0 g0) (pre ++ Event.sealMsg sp kg sok :: mid)).1
      = (exec (step (exec (initialState st0 g0) pre).1
          (Event.sealMsg sp kg sok)).1 mid).1 := by
    rw [exec_append]
    simp only [exec]
  have hpA : (step (exec (initialState st0 g0) pre).1
      (Event.sealMsg sp kg sok)).1.panicked = false := by
    apply exec_panicked_mono mid
    rw [← hdec]
    exact hrun
  have hpPre : (exec (initialState st0 g0) pre).1.panicked = false :=
    step_panicked_mono _ _ hpA
  have hgate : seal_gate_on
      (exec (initialState st0 g0) (pre ++ Event.sealMsg sp kg sok :: mid)).1 := by
    rw [hdec]
    exact exec_seal_gate mid _ (step_sealMsg_gate _ sp kg sok hpPre)
  set s1 := (exec (initialState st0 g0) (pre ++ Event.sealMsg sp kg sok :: mid)).1
    with hs1
  have hps := process_store_seal_gate s1.state peer body s1.staging_local_tail
      (max s1.staging_local_tail (max s1.known_global_tail body.known_global_tail))
      s1.sealing_in_progress ok hflag hgate
  refine ⟨if s1.state.is_sealed then .Sealed else .Sealing, ?_, ?_⟩
  · simp only [step, hrun, Bool.false_eq_true, if_false, hps]
  · by_cases hsl : s1.state.is_sealed = true
    · rw [if_pos (by rw [hsl])]
      exact Or.inl rfl
    · rw [if_neg (by simp [Bool.not_eq_true _ |>.mp hsl])]
      exact Or.inr rfl

/-- Witness for seal_blocks_later_stores: right after a single Seal on a
fresh worker, a store at offset 1 is answered Sealing. -/
theorem seal_blocks_later_stores_witness :
    ∃ stat,
      (step (exec (initialState ⟨⟨1, false⟩, 0, none⟩ 0)
          ([] ++ Event.sealMsg ⟨1, 1⟩ 0 true :: [])).1
          (Event.storeMsg ⟨1, 1⟩ ⟨1, [0], ⟨1, 1⟩, ⟨false⟩, false, 0⟩ true)).2
        = [Response.stored ⟨1, 1⟩ 1 1 stat
            (exec (initialState ⟨⟨1, false⟩, 0, none⟩ 0)
              ([] ++ Event.sealMsg ⟨1, 1⟩ 0 true :: [])).1.state.local_tail] ∧
      (stat = Status.Sealed ∨ stat = Status.Sealing) :=
  seal_blocks_later_stores ⟨⟨1, false⟩, 0, none⟩ 0 [] [] ⟨1, 1⟩ 0 true ⟨1, 1⟩
    ⟨1, [0], ⟨1, 1⟩, ⟨false⟩, false, 0⟩ true rfl (by decide)

/-- C5: Seal handling. On a not-yet-sealed loglet a Seal message registers
an independent waiter, sets sealing_in_progress, and fills the in-flight
seal slot when the log store accepts, responding nothing yet. When the log
store confirms the seal, the worker publishes the seal notification, clears
sealing_in_progress and empties the in-flight-seal slot. Once sealed, every
registered waiter fires with a Sealed response with status Ok carrying the
sealed local tail (one per pending Seal request, released by the single
notification, including retroactively). A Seal arriving on an already
sealed loglet clears sealing_in_progress and its waiter is answered with
the current sealed tail the same way. -/
theorem seal_waiters_and_completion :
    (∀ (s : WorkerState) (sp : GenerationalNodeId) (kg : Nat) (ok : Bool),
      s.panicked = false → s.state.is_sealed = false →
      (step s (.sealMsg sp kg ok)).1.waiting_for_seal
        = s.waiting_for_seal ++ [sp] ∧
      (step s (.sealMsg sp kg ok)).1.sealing_in_progress = true ∧
      (ok = true → (step s (.sealMsg sp kg ok)).1.in_flight_seal = true) ∧
      (step s (.sealMsg sp kg ok)).2 = []) ∧
    (∀ (s : WorkerState), s.panicked = false → s.in_flight_seal = true →
      (step s .sealCompleted).1.state.local_tail.sealed = true ∧
      (step s .sealCompleted).1.sealing_in_progress = false ∧
      (step s .sealCompleted).1.in_flight_seal = false) ∧
    (∀ (s : WorkerState) (idx : Nat) (sp : GenerationalNodeId),
      s.panicked = false → s.state.is_sealed = true →
      s.waiting_for_seal.get? idx = some sp →
      (step s (.sealWaiterFires idx)).2
        = [Response.sealedResp sp Status.Ok s.state.local_tail] ∧
      (step s (.sealWaiterFires idx)).1.waiting_for_seal
        = s.waiting_for_seal.eraseIdx idx) ∧
    (∀ (s : WorkerState) (sp : GenerationalNodeId) (kg : Nat) (ok : Bool),
      s.panicked = false → s.state.is_sealed = true →
      (step s (.sealMsg sp kg ok)).1.sealing_in_progress = false ∧
      (step s (.sealMsg sp kg ok)).1.waiting_for_seal
        = s.waiting_for_seal ++ [sp] ∧
      (step s (.sealMsg sp kg ok)).1.state.local_tail.sealed = true) := by
  refine ⟨?_, ?_, ?_, ?_⟩
  · intro s sp kg ok hp hsl
    refine ⟨?_, ?_, ?_, ?_⟩
    · simp [step, hp, process_seal, hsl]
    · simp [step, hp, process_seal, hsl]
    · intro hok
      simp [step, hp, process_seal, hsl, hok]
    · simp [step, hp, process_seal, hsl]
  · intro s hp hifs
    refine ⟨?_, ?_, ?_⟩ <;>
      simp [step, hp, hifs, LogletState.notify_seal]
  · intro s idx sp hp hsl hg
    have hg2 : s.waiting_for_seal[idx]? = some sp := by
      rw [← List.get?_eq_getElem?]
      exact hg
    refine ⟨?_, ?_⟩ <;>
      simp [step, hp, hg2, hsl]
  · intro s sp kg ok hp hsl
    refine ⟨?_, ?_, ?_⟩
    · simp [step, hp, process_seal, hsl]
    · simp [step, hp, process_seal, hsl]
    · have hsealed : s.state.local_tail.sealed = true := hsl
      simp [step, hp, process_seal, hsl, hsealed]

/-- Witness for seal_waiters_and_completion: each part evaluated at a
concrete worker state. -/
theorem seal_waiters_and_completion_witness :
    ((step (initialState ⟨⟨1, false⟩, 0, none⟩ 0)
        (.sealMsg ⟨1, 1⟩ 0 true)).1.waiting_for_seal
      = (initialState ⟨⟨1, false⟩, 0, none⟩ 0).waiting_for_seal ++ [⟨1, 1⟩] ∧
     (step (initialState ⟨⟨1, false⟩, 0, none⟩ 0)
        (.sealMsg ⟨1, 1⟩ 0 true)).1.sealing_in_progress = true ∧
     (true = true → (step (initialState ⟨⟨1, false⟩, 0, none⟩ 0)
        (.sealMsg ⟨1, 1⟩ 0 true)).1.in_flight_seal = true) ∧
     (step (initialState ⟨⟨1, false⟩, 0, none⟩ 0) (.sealMsg ⟨1, 1⟩ 0 true)).2 = []) ∧
    ((step ⟨⟨⟨1, false⟩, 0, none⟩, 1, 0, true, [], [⟨1, 1⟩], true, false⟩
        .sealCompleted).1.state.local_tail.sealed = true ∧
     (step ⟨⟨⟨1, false⟩, 0, none⟩, 1, 0, true, [], [⟨1, 1⟩], true, false⟩
        .sealCompleted).1.sealing_in_progress = false ∧
     (step ⟨⟨⟨1, false⟩, 0, none⟩, 1, 0, true, [], [⟨1, 1⟩], true, false⟩
        .sealCompleted).1.in_flight_seal = false) ∧
    ((step ⟨⟨⟨3, true⟩, 0, none⟩, 3, 0, false, [], [⟨2, 1⟩], false, false⟩
        (.sealWaiterFires 0)).2
      = [Response.sealedResp ⟨2, 1⟩ Status.Ok
          (⟨⟨⟨3, true⟩, 0, none⟩, 3, 0, false, [], [⟨2, 1⟩], false, false⟩
            : WorkerState).state.local_tail] ∧
     (step ⟨⟨⟨3, true⟩, 0, none⟩, 3, 0, false, [], [⟨2, 1⟩], false, false⟩
        (.sealWaiterFires 0)).1.waiting_for_seal
      = (( [⟨2, 1⟩] : List GenerationalNodeId).eraseIdx 0)) ∧
    ((step ⟨⟨⟨3, true⟩, 0, none⟩, 3, 0, false, [], [], false, false⟩
        (.sealMsg ⟨1, 1⟩ 0 false)).1.sealing_in_progress = false ∧
     (step ⟨⟨⟨3, true⟩, 0, none⟩, 3, 0, false, [], [], false, false⟩
        (.sealMsg ⟨1, 1⟩ 0 false)).1.waiting_for_seal
      = (⟨⟨⟨3, true⟩, 0, none⟩, 3, 0, false, [], [], false, false⟩
          : WorkerState).waiting_for_seal ++ [⟨1, 1⟩] ∧
     (step ⟨⟨⟨3, true⟩, 0, none⟩, 3, 0, false, [], [], false, false⟩
        (.sealMsg ⟨1, 1⟩ 0 false)).1.state.local_tail.sealed = true) := by
  have h := seal_waiters_and_completion
  exact ⟨h.1 (initialState ⟨⟨1, false⟩, 0, none⟩ 0) ⟨1, 1⟩ 0 true rfl rfl,
    h.2.1 ⟨⟨⟨1, false⟩, 0, none⟩, 1, 0, true, [], [⟨1, 1⟩], true, false⟩ rfl rfl,
    h.2.2.1 ⟨⟨⟨3, true⟩, 0, none⟩, 3, 0, false, [], [⟨2, 1⟩], false, false⟩ 0
      ⟨2, 1⟩ rfl rfl rfl,
    h.2.2.2 ⟨⟨⟨3, true⟩, 0, none⟩, 3, 0, false, [], [], false, false⟩ ⟨1, 1⟩ 0
      false rfl rfl⟩

/-- C8 (amended): fail-safe surfacing. For a Store, fail-safe at enqueue is
answered Disabled, and fail-safe at completion is answered Disabled. For a
Trim, fail-safe of the completion token is answered Disabled, but fail-safe
of the enqueue itself produces no response (the error aborts the trim
task). For a Seal, fail-safe of the enqueue produces no response at all and
leaves the loglet unsealed with the gate up, so the waiters keep waiting
indefinitely. -/
theorem failsafe_responses :
    (∀ (st : LogletState) (peer : GenerationalNodeId) (body : Store)
        (staging kgt : Nat) (sealing : Bool),
      body.flags.ignore_seal = false →
      admission_status st peer body staging kgt sealing = none →
      ∃ out, process_store st peer body staging (max staging kgt) sealing false
          = some out ∧ out.status = .Disabled) ∧
    (∀ (s : WorkerState) (idx : Nat) (p : PendingStore),
      s.panicked = false → s.in_flight_stores.get? idx = some p →
      (step s (.storeCompleted idx false)).2
        = [Response.stored p.peer p.first_offset p.num_payloads .Disabled
            ⟨LogletOffset.INVALID, false⟩]) ∧
    (∀ (st : LogletState) (kgt tp : Nat),
      LogletOffset.OLDEST ≤ tp → tp < max kgt st.local_tail.offset →
      st.trim_point < min tp (LogletOffset.prev st.local_tail.offset) →
      (∃ tl, (process_trim st kgt tp true false).response = some (.Disabled, tl)) ∧
      (process_trim st kgt tp false false).response = none) ∧
    (∀ (s : WorkerState) (sp : GenerationalNodeId) (kg : Nat),
      s.panicked = false → s.state.is_sealed = false →
      (step s (.sealMsg sp kg false)).2 = [] ∧
      (step s (.sealMsg sp kg false)).1.state.local_tail.sealed
        = s.state.local_tail.sealed ∧
      (step s (.sealMsg sp kg false)).1.in_flight_seal = s.in_flight_seal) := by
  refine ⟨?_, ?_, ?_, ?_⟩
  · intro st peer body staging kgt sealing hflag hadm
    obtain ⟨out, h1, h2, h3⟩ :=
      process_store_of_admission_none st peer body staging kgt sealing false
        hflag hadm
    exact ⟨out, h1, by simpa using h3⟩
  · intro s idx p hp hg
    simp only [step, hp, Bool.false_eq_true, if_false, hg]
  · intro st kgt tp h1 h2 hadv
    have hcond : ¬(tp < LogletOffset.OLDEST ∨ tp ≥ max kgt st.local_tail.offset) := by
      push_neg
      exact ⟨h1, h2⟩
    constructor
    · refine ⟨(st.update_trim_point
        (min tp (LogletOffset.prev st.local_tail.offset))).1.local_tail, ?_⟩
      simp only [process_trim, LogletState.update_trim_point, if_neg hcond,
        if_pos hadv]
      simp [LogletState.update_trim_point, if_pos hadv]
    · simp only [process_trim, LogletState.update_trim_point, if_neg hcond,
        if_pos hadv]
      simp
  · intro s sp kg hp hsl
    refine ⟨?_, ?_, ?_⟩ <;>
      simp [step, hp, process_seal, hsl]

/-- Witness for failsafe_responses: each part at a concrete input. -/
theorem failsafe_responses_witness :
    (∃ out, process_store ⟨⟨1, false⟩, 0, none⟩ ⟨1, 1⟩
        ⟨1, [0], ⟨1, 1⟩, ⟨false⟩, false, 0⟩ 1 (max 1 0) false false
        = some out ∧ out.status = .Disabled) ∧
    ((step ⟨⟨⟨1, false⟩, 0, none⟩, 3, 0, false, [⟨⟨1, 1⟩, 1, 2, 3⟩], [], false,
        false⟩ (.storeCompleted 0 false)).2
      = [Response.stored ⟨1, 1⟩ 1 2 .Disabled ⟨LogletOffset.INVALID, false⟩]) ∧
    ((∃ tl, (process_trim ⟨⟨7, false⟩, 0, none⟩ 10 5 true false).response
        = some (.Disabled, tl)) ∧
     (process_trim ⟨⟨7, false⟩, 0, none⟩ 10 5 false false).response = none) ∧
    ((step (initialState ⟨⟨1, false⟩, 0, none⟩ 0) (.sealMsg ⟨1, 1⟩ 0 false)).2
        = [] ∧
     (step (initialState ⟨⟨1, false⟩, 0, none⟩ 0)
        (.sealMsg ⟨1, 1⟩ 0 false)).1.state.local_tail.sealed
      = (initialState ⟨⟨1, false⟩, 0, none⟩ 0).state.local_tail.sealed ∧
     (step (initialState ⟨⟨1, false⟩, 0, none⟩ 0)
        (.sealMsg ⟨1, 1⟩ 0 false)).1.in_flight_seal
      = (initialState ⟨⟨1, false⟩, 0, none⟩ 0).in_flight_seal) := by
  have h := failsafe_responses
  exact ⟨h.1 ⟨⟨1, false⟩, 0, none⟩ ⟨1, 1⟩ ⟨1, [0], ⟨1, 1⟩, ⟨false⟩, false, 0⟩ 1 0
      false rfl (by decide),
    h.2.1 ⟨⟨⟨1, false⟩, 0, none⟩, 3, 0, false, [⟨⟨1, 1⟩, 1, 2, 3⟩], [], false,
      false⟩ 0 ⟨⟨1, 1⟩, 1, 2, 3⟩ rfl rfl,
    h.2.2.1 ⟨⟨7, false⟩, 0, none⟩ 10 5 (by decide) (by decide) (by decide),
    h.2.2.2 (initialState ⟨⟨1, false⟩, 0, none⟩ 0) ⟨1, 1⟩ 0 rfl rfl⟩

end LogletWorker
